import Mathlib

/-!
Verification of the core algorithms of the Ai-Adv repository against its
specification.  The definitions below are a shallow embedding of

* `src/orchestrator/trends_integration.py` (class `SecureTrendsProcessor`
  and the module-level helpers), and
* `src/orchestrator/json_repair_engine.py` (class `JSONRepairEngine` and
  `parse_llm_json_with_repair`).

Modelling conventions:
* Python strings are Lean `String`s; character-level work happens on
  `List Char`.  Case mapping and character classes (`\w`, `\s`, `\d`,
  `[A-Z]`, `[a-z]`) are modelled on their ASCII fragment, which is the
  fragment the repository's data exercises.
* The handful of fixed regular expressions in the source are compiled by
  hand into specialised matchers.  Each matcher is deterministic because
  the concerned patterns have no genuine backtracking (greedy character
  classes are always bounded by a character excluded from the class); the
  correspondence is noted at each definition.
* Randomness (`random.choice`, `random.sample`) and the wall clock
  (`time.time`) are passed in as explicit parameters.
* Exceptions are modelled with `Option`: `none` where the Python code
  would raise (every call site that swallows exceptions does so
  explicitly in the embedding).
-/

set_option maxRecDepth 10000

namespace AiAdv

/-- Python whitespace for `\s` and `str.strip()` (ASCII fragment):
space, tab, newline, carriage return, vertical tab, form feed. -/
def isPySpace (c : Char) : Bool :=
  c = ' ' || c = '\t' || c = '\n' || c = '\r' || c = Char.ofNat 11 || c = Char.ofNat 12

/-- Python `\w` word characters (ASCII fragment): alphanumerics and underscore. -/
def isWordChar (c : Char) : Bool := c.isAlphanum || c = '_'

/-- `str.lower` (ASCII fragment). -/
def pyLower (s : String) : String := ⟨s.data.map Char.toLower⟩

/-- `str.strip()` on a character list: drop whitespace from both ends. -/
def pyStripL (cs : List Char) : List Char :=
  ((cs.dropWhile isPySpace).reverse.dropWhile isPySpace).reverse

/-- `str.strip()` with no argument. -/
def pyStrip (s : String) : String := ⟨pyStripL s.data⟩

/-- `str.strip(chars)`: drop characters of the given set from both ends. -/
def pyStripSetL (set : List Char) (cs : List Char) : List Char :=
  ((cs.dropWhile (fun c => set.contains c)).reverse.dropWhile
      (fun c => set.contains c)).reverse

/-- Does `needle` occur at the head of `hay`? -/
def startsWithL : List Char → List Char → Bool
  | [], _ => true
  | _ :: _, [] => false
  | n :: ns, h :: hs => n = h && startsWithL ns hs

/-- Python's substring test `needle in hay` on character lists. -/
def containsSubL (needle : List Char) : List Char → Bool
  | [] => startsWithL needle []
  | c :: cs => startsWithL needle (c :: cs) || containsSubL needle cs

/-- Python's substring test `needle in hay`. -/
def containsSub (needle hay : String) : Bool := containsSubL needle.data hay.data

/-- Consume a literal from the head of the input, returning the rest. -/
def consumeLit : List Char → List Char → Option (List Char)
  | [], cs => some cs
  | _ :: _, [] => none
  | n :: ns, c :: cs => if n = c then consumeLit ns cs else none

/-- Does any of the words occur literally at the head of the input? -/
def startsWithAny (ws : List String) (cs : List Char) : Bool :=
  ws.any (fun w => (consumeLit w.data cs).isSome)

/-- `str.replace(old, new)` on character lists: replace the non-overlapping
occurrences of `old` from the left.  Fuel-driven (every step consumes at
least one character, so `length + 1` fuel is exact).  All needles used in
this file are nonempty; an empty needle is treated as matching nothing. -/
def replaceL (fuel : Nat) (old new : List Char) (cs : List Char) : List Char :=
  match fuel, cs with
  | 0, rest => rest
  | _ + 1, [] => []
  | f + 1, c :: t =>
    match consumeLit old (c :: t) with
    | some rest =>
      if old.isEmpty then c :: replaceL f old new t
      else new ++ replaceL f old new rest
    | none => c :: replaceL f old new t

/-- `str.replace(old, new)`. -/
def pyReplace (s old new : String) : String :=
  ⟨replaceL (s.length + 1) old.data new.data s.data⟩

/-- `str.split(sep)` for a nonempty separator, on character lists
(`cur` accumulates the current piece reversed). -/
def splitOnL (fuel : Nat) (sep : List Char) (cur : List Char) (cs : List Char) :
    List String :=
  match fuel, cs with
  | 0, rest => [⟨cur.reverse ++ rest⟩]
  | _ + 1, [] => [⟨cur.reverse⟩]
  | f + 1, c :: t =>
    match consumeLit sep (c :: t) with
    | some rest =>
      if sep.isEmpty then splitOnL f sep (c :: cur) t
      else ⟨cur.reverse⟩ :: splitOnL f sep [] rest
    | none => splitOnL f sep (c :: cur) t

/-- `str.split(sep)`. -/
def pySplit (s sep : String) : List String :=
  splitOnL (s.length + 1) sep.data [] s.data

/-- `s[:n]` (Python slices strings by code point, as `List.take` does). -/
def pyTake (s : String) (n : Nat) : String := ⟨s.data.take n⟩

/-- One word of a `\b(w1|w2|...)\b` alternation matching at the current
position: the character before the position is not a word character
(tracked by `prevIsWord`), the word occurs literally, and the following
character (if any) is not a word character. -/
def wordAtBoundary (w : List Char) (prevIsWord : Bool) (cs : List Char) : Bool :=
  !prevIsWord &&
    (match consumeLit w cs with
     | some [] => true
     | some (c :: _) => !isWordChar c
     | none => false)

/-- `re.search` for `\b(w1|w2|...)\b`: try every position. -/
def wbSearchFrom (ws : List (List Char)) (prevIsWord : Bool) : List Char → Bool
  | [] => false
  | c :: cs =>
    ws.any (fun w => wordAtBoundary w prevIsWord (c :: cs)) ||
      wbSearchFrom ws (isWordChar c) cs

/-- `re.search(r"\b(w1|w2|...)\b", s)` for words made of word characters. -/
def wbSearch (ws : List String) (s : String) : Bool :=
  wbSearchFrom (ws.map (fun w => w.data)) false s.data

/-- `re.search(r"^[A-Z][a-z]+ (says|reports|confirms|denies)", topic)`
(case sensitive, anchored at the start).  Deterministic: the greedy
`[a-z]+` is necessarily the maximal lowercase run, since the following
character must be a space. -/
def news_style_match (s : String) : Bool :=
  match s.data with
  | [] => false
  | c :: rest =>
    c.isUpper &&
      decide (rest.takeWhile Char.isLower ≠ []) &&
      (match rest.dropWhile Char.isLower with
       | ' ' :: r3 => startsWithAny ["says", "reports", "confirms", "denies"] r3
       | _ => false)

/-- Matcher for `- [A-Z][a-z]+, [A-Z][A-Z]` at the current position,
parameterised by the two character classes (so the same definition serves
the case-sensitive use and the `re.IGNORECASE` use).  Deterministic: the
greedy run must be maximal because the next pattern character is a comma,
which the class excludes. -/
def locMatchAt (up low : Char → Bool) : List Char → Bool
  | '-' :: ' ' :: c :: rest =>
    up c &&
      decide (rest.takeWhile low ≠ []) &&
      (match rest.dropWhile low with
       | ',' :: ' ' :: a :: b :: _ => up a && up b
       | _ => false)
  | _ => false

/-- `re.search` version of `locMatchAt`: try every position. -/
def locSearch (up low : Char → Bool) : List Char → Bool
  | [] => false
  | c :: cs => locMatchAt up low (c :: cs) || locSearch up low cs

/-- `\d+ (w1|w2|...)` at the current position (on a lowered string).
Deterministic: the greedy `\d+` run must be maximal because the next
pattern character is a space. -/
def digitWordMatchAt (ws : List String) : List Char → Bool
  | [] => false
  | c :: rest =>
    c.isDigit &&
      (match rest.dropWhile Char.isDigit with
       | ' ' :: r3 => startsWithAny ws r3
       | _ => false)

/-- `re.search(r"\d+ (w1|w2|...)", s)`: try every position. -/
def digitWordSearch (ws : List String) : List Char → Bool
  | [] => false
  | c :: cs => digitWordMatchAt ws (c :: cs) || digitWordSearch ws cs

/-- `re.search(r"^\w+ (says|reports|confirms|denies|announces)", topic,
re.IGNORECASE)`, evaluated on the lowered string. -/
def news_like_head (lo : List Char) : Bool :=
  decide (lo.takeWhile isWordChar ≠ []) &&
    (match lo.dropWhile isWordChar with
     | ' ' :: r3 =>
       startsWithAny ["says", "reports", "confirms", "denies", "announces"] r3
     | _ => false)

/-- ASCII letter (what `[A-Z]` and `[a-z]` match under `re.IGNORECASE`). -/
def isAsciiLetter (c : Char) : Bool := c.isUpper || c.isLower

/-- `SecureTrendsProcessor.avoid_keywords`: the comprehensive content
safety blocklist, verbatim from `trends_integration.py`. -/
def avoid_keywords : List String :=
  ["war", "violence", "shooting", "murder", "kill", "death", "died", "dead", "suicide",
   "bomb", "explosion", "attack", "terrorism", "terrorist", "assault", "abuse", "rape",
   "kidnap", "torture", "weapon", "gun", "knife", "blood", "stabbing", "beaten",
   "politics", "election", "trump", "biden", "republican", "democrat", "vote", "campaign",
   "protest", "scandal", "controversy", "impeach", "coup", "fraud", "corruption",
   "tragedy", "disaster", "crash", "accident", "fire", "flood", "hurricane", "earthquake",
   "pandemic", "covid", "virus", "disease", "illness", "hospital", "emergency",
   "sexual", "porn", "nude", "naked", "sex", "inappropriate", "offensive", "racist",
   "discrimination", "hate", "extremist", "radical", "banned", "illegal", "drugs",
   "breaking", "urgent", "alert", "warning", "crisis", "investigation", "arrest",
   "charged", "guilty", "sentence", "prison", "jail", "court", "lawsuit", "trial",
   "child", "minor", "kid", "baby", "infant", "teen", "student", "school", "young",
   "victim", "injured", "hurt", "pain", "suffering", "sad", "depression", "anxiety"]

/-- The six `sensitive_patterns` word alternations of
`_is_sensitive_topic`, in source order. -/
def sensitive_patterns : List (List String) :=
  [["kill", "murder", "death", "died", "dead"],
   ["rape", "sexual", "abuse"],
   ["trump", "biden", "president"],
   ["shooting", "bomb", "attack"],
   ["child", "kid", "minor", "teen"],
   ["crash", "accident", "tragedy"]]

/-- The incident words of the location-dateline check in `_is_sensitive_topic`. -/
def incident_words : List String := ["reports", "investigation", "incident"]

/-- `SecureTrendsProcessor._is_sensitive_topic`. -/
def is_sensitive_topic (topic : String) : Bool :=
  let lo := pyLower topic
  avoid_keywords.any (fun k => containsSub k lo) ||
    sensitive_patterns.any (fun ws => wbSearch ws lo) ||
    news_style_match topic ||
    (locSearch Char.isUpper Char.isLower topic.data &&
      incident_words.any (fun w => containsSub w lo))

/-- `SecureTrendsProcessor._looks_like_news`: the five `news_patterns`,
all searched with `re.IGNORECASE` (so the `[A-Z]`/`[a-z]` classes of the
location pattern match any ASCII letter). -/
def looks_like_news (topic : String) : Bool :=
  let lo := pyLower topic
  news_like_head lo.data ||
    locSearch isAsciiLetter isAsciiLetter topic.data ||
    ["investigation", "incident", "reports", "breaking", "urgent"].any
      (fun w => containsSub w lo) ||
    ["arrested", "charged", "guilty", "sentenced"].any (fun w => containsSub w lo) ||
    digitWordSearch ["killed", "injured", "dead", "hurt"] lo.data

/-- The character class `[<>{}[\]\\|` + backtick + `~]` of
`_filter_and_validate_trends` (braces and backtick written by code). -/
def special_chars : List Char :=
  ['<', '>', Char.ofNat 123, Char.ofNat 125, '[', ']', '\\', '|', Char.ofNat 96, '~']

/-- `re.search(r"[<>{}[\]\\|` backtick `~]", s)`. -/
def has_special_char (s : String) : Bool :=
  s.data.any (fun c => special_chars.contains c)

/-- `SecureTrendsProcessor._get_safe_fallback_trends`, verbatim. -/
def get_safe_fallback_trends : List String :=
  ["Summer outdoor activities", "Healthy cooking recipes", "Home garden tips",
   "Pet care advice", "Travel destinations", "Art and creativity",
   "Music and entertainment", "Sports and fitness", "Technology gadgets",
   "Fashion trends"]

/-- The `safe_topics` list of `SecureTrendsProcessor._get_fallback_trends`,
verbatim (the method returns a `random.sample` of 10 of these 20). -/
def fallback_safe_topics : List String :=
  ["Summer vacation destinations", "Ice cream flavors and recipes",
   "Pet adoption and care", "Music festivals and concerts",
   "Art exhibitions and galleries", "Food trucks and street food",
   "Beach activities and water sports", "Garden parties and outdoor dining",
   "Street art and murals", "Local farmers markets", "Home workout routines",
   "Healthy cooking and nutrition", "DIY crafts and hobbies",
   "Photography tips and techniques", "Book recommendations and reviews",
   "Coffee shop culture", "Hiking trails and nature", "Board games and puzzles",
   "Sustainable living tips", "Mindfulness and meditation"]

/-- One candidate's structural and safety checks inside the `for` loop of
`_filter_and_validate_trends`: returns the stripped candidate if it
survives every `continue`. -/
def structural_pass (trend : String) : Option String :=
  if trend = "" || (pyStrip trend).length < 3 then none
  else
    let tc := pyStrip trend
    if is_sensitive_topic tc then none
    else if 150 < tc.length then none
    else if has_special_char tc then none
    else if looks_like_news tc then none
    else some tc

/-- The collection loop of `_filter_and_validate_trends`, including the
`break` once 15 candidates have been collected. -/
def filter_loop (acc : List String) : List String → List String
  | [] => acc.reverse
  | t :: ts =>
    match structural_pass t with
    | none => filter_loop acc ts
    | some tc =>
      if 15 ≤ (tc :: acc).length then (tc :: acc).reverse
      else filter_loop (tc :: acc) ts

/-- `SecureTrendsProcessor._filter_and_validate_trends`. -/
def filter_and_validate_trends (trends : List String) : List String :=
  let filtered := filter_loop [] trends
  let filtered :=
    if filtered.length < 3 then filtered ++ get_safe_fallback_trends.take 5
    else filtered
  filtered.take 10

/-- The mutable fields of `SecureTrendsProcessor` that the cache logic
touches (`cached_trends`, `cache_expiry`, `last_request_time`).  The wall
clock is modelled with natural numbers. -/
structure TrendsState where
  cached_trends : Option (List String)
  cache_expiry : Nat
  last_request_time : Nat
deriving DecidableEq

/-- `SecureTrendsProcessor.__init__`'s cache fields. -/
def initialTrendsState : TrendsState := ⟨none, 0, 0⟩

/-- `config.cache_duration` (900 seconds, from `trends_config.py`). -/
def cache_duration : Nat := 900

/-- `SecureTrendsProcessor._is_cache_valid`, with the current time passed
explicitly. -/
def is_cache_valid (now : Nat) (st : TrendsState) : Bool :=
  match st.cached_trends with
  | none => false
  | some ts => decide (now < st.cache_expiry) && decide (0 < ts.length)

/-- `SecureTrendsProcessor._update_cache`. -/
def update_cache (now : Nat) (trends : List String) (_st : TrendsState) : TrendsState :=
  { cached_trends := some trends
    cache_expiry := now + cache_duration
    last_request_time := now }

/-- The FINAL SAFETY CHECK loop of `fetch_trends_multi_source`: collect
candidates that pass `_is_sensitive_topic`, skipping unsafe ones, and
`break` (keeping what was collected) on the third unsafe candidate. -/
def final_safety_loop (acc : List String) (attempts : Nat) : List String → List String
  | [] => acc.reverse
  | t :: ts =>
    if is_sensitive_topic t then
      if 3 ≤ attempts + 1 then acc.reverse
      else final_safety_loop acc (attempts + 1) ts
    else final_safety_loop (t :: acc) attempts ts

/-- `SecureTrendsProcessor._get_fallback_trends`:
`random.sample(safe_topics, min(10, len(safe_topics)))`, with the
sampling function passed explicitly. -/
def get_fallback_trends (sample : List String → Nat → List String) : List String :=
  sample fallback_safe_topics (min 10 fallback_safe_topics.length)

/-- The source loop of `fetch_trends_multi_source`.  Each entry of
`sources` is the outcome of one fetch function: `none` when the call
raised, `some ts` when it returned the list `ts`. -/
def fetch_loop (sample : List String → Nat → List String) (now : Nat)
    (st : TrendsState) : List (Option (List String)) → List String × TrendsState
  | [] =>
    let fb := get_fallback_trends sample
    (fb, update_cache now fb st)
  | src :: rest =>
    match src with
    | none => fetch_loop sample now st rest
    | some trends =>
      if trends.isEmpty then fetch_loop sample now st rest
      else
        let filtered := filter_and_validate_trends trends
        let finalSafe := final_safety_loop [] 0 filtered
        if finalSafe.isEmpty then fetch_loop sample now st rest
        else (finalSafe, update_cache now finalSafe st)

/-- `SecureTrendsProcessor.fetch_trends_multi_source`: returns the chosen
trend list together with the updated processor state. -/
def fetch_trends_multi_source (sample : List String → Nat → List String)
    (now : Nat) (sources : List (Option (List String))) (st : TrendsState) :
    List String × TrendsState :=
  if is_cache_valid now st then (st.cached_trends.getD [], st)
  else fetch_loop sample now st sources

/-- `re.sub(r"\s+", " ", s)`: collapse whitespace runs to single spaces
(the flag records whether the previous character was part of a run). -/
def collapse_ws_go (prevSpace : Bool) : List Char → List Char
  | [] => []
  | c :: cs =>
    if isPySpace c then
      if prevSpace then collapse_ws_go true cs
      else ' ' :: collapse_ws_go true cs
    else c :: collapse_ws_go false cs

/-- `SecureTrendsProcessor._clean_trend_title`: remove characters outside
`[\w\s-]`, collapse whitespace, strip, lowercase. -/
def clean_trend_title (trend : String) : String :=
  let kept := trend.data.filter (fun c => isWordChar c || isPySpace c || c = '-')
  pyLower ⟨pyStripL (collapse_ws_go false kept)⟩

/-- The `stop_words` set of `extract_hook_keywords`, verbatim. -/
def stop_words : List String :=
  ["the", "a", "an", "and", "or", "but", "in", "on", "at", "to", "for", "of",
   "with", "by", "from", "up", "about", "into", "through", "during", "before",
   "after", "above", "below", "is", "are", "was", "were", "be", "been", "being",
   "have", "has", "had", "do", "does", "did", "will", "would", "could", "should",
   "may", "might", "must", "can", "this", "that", "these", "those",
   "trump", "biden", "president", "rape", "kill", "murder", "death", "died",
   "dead", "child", "kid"]

/-- `re.findall(r"\b\w+\b", s)`: the maximal word-character runs, collected
with an accumulator for the run in progress. -/
def word_runs_go (cur : List Char) : List Char → List String
  | [] => if cur.isEmpty then [] else [⟨cur.reverse⟩]
  | c :: cs =>
    if isWordChar c then word_runs_go (c :: cur) cs
    else if cur.isEmpty then word_runs_go [] cs
    else ⟨cur.reverse⟩ :: word_runs_go [] cs

/-- `SecureTrendsProcessor.extract_hook_keywords`. -/
def extract_hook_keywords (trend : String) : List String :=
  if is_sensitive_topic trend then ["trending", "popular", "viral"]
  else
    let ct := clean_trend_title trend
    if is_sensitive_topic ct then ["trending", "popular", "viral"]
    else
      let words := word_runs_go [] (pyLower ct).data
      let keywords := words.filter (fun w =>
        2 < w.length && !(stop_words.contains w) &&
          !(avoid_keywords.any (fun h => containsSub h w)))
      if keywords.isEmpty then ["trending", "viral", "popular"]
      else keywords.take 3

/-- `SecureTrendsProcessor.happy_modifiers`, verbatim. -/
def happy_modifiers : List String :=
  ["vibrant", "colorful", "joyful", "exciting", "magical", "whimsical",
   "fantastic", "amazing", "spectacular", "delightful", "cheerful", "bright"]

/-- `SecureTrendsProcessor.story_templates`, verbatim. -/
def story_templates : List String :=
  ["A {modifier} scene featuring {topic} with sparkling effects and rainbow colors",
   "An enchanting {topic} adventure in a {modifier} wonderland setting",
   "A festive celebration of {topic} with {modifier} decorations everywhere",
   "A {modifier} carnival atmosphere celebrating {topic} with confetti and lights",
   "An uplifting {topic} scene in a {modifier} fairy tale environment"]

/-- The `spice_elements` list of `create_spiced_story`, verbatim. -/
def spice_elements : List String :=
  ["with golden hour lighting", "surrounded by floating balloons",
   "with gentle sparkles in the air", "in a dreamy pastel color palette",
   "with soft bokeh effects", "featuring happy people laughing",
   "with beautiful flowers blooming", "under a clear blue sky",
   "with warm sunset colors", "featuring vibrant energy",
   "with magical atmosphere", "in a picture-perfect setting"]

/-- `random.choice`, determinised by an index parameter. -/
def pyChoice (l : List String) (i : Nat) : String := l.getD (i % l.length) ""

/-- `template.format(topic=..., modifier=...)` for the fixed templates:
substitute both placeholders (the substituted texts never contain a
placeholder, so sequential replacement agrees with `str.format`). -/
def format_story (template topic modifier : String) : String :=
  pyReplace (pyReplace template "{modifier}" modifier) "{topic}" topic

/-- The `Dict[str, str]` returned by `create_spiced_story`
(`hook_keywords` is added later by `get_trending_spiced_story`). -/
structure SpicedStory where
  original_trend : String
  clean_trend : String
  spiced_story : String
  modifier_used : String
deriving DecidableEq

/-- `SecureTrendsProcessor._get_fallback_story`, verbatim. -/
def fallback_story : SpicedStory :=
  { original_trend := "Summer celebration"
    clean_trend := "summer celebration"
    spiced_story := "A vibrant summer celebration with colorful decorations and joyful people dancing under golden hour lighting"
    modifier_used := "vibrant" }

/-- The candidate loop of `create_spiced_story`.  `attempts` counts every
candidate processed; an unsafe candidate (before or after cleaning) at the
third attempt triggers the `break` to the fallback story. -/
def spiced_loop (mi ti si : Nat) (attempts : Nat) : List String → SpicedStory
  | [] => fallback_story
  | t :: ts =>
    let att := attempts + 1
    if is_sensitive_topic t then
      if 3 ≤ att then fallback_story else spiced_loop mi ti si att ts
    else
      let ct := clean_trend_title t
      if is_sensitive_topic ct then
        if 3 ≤ att then fallback_story else spiced_loop mi ti si att ts
      else
        let modifier := pyChoice happy_modifiers mi
        let spiced := format_story (pyChoice story_templates ti) ct modifier
        { original_trend := t
          clean_trend := ct
          spiced_story := spiced ++ " " ++ pyChoice spice_elements si
          modifier_used := modifier }

/-- `SecureTrendsProcessor.create_spiced_story`, with the three
`random.choice` draws (modifier, template, spice element) determinised by
index parameters. -/
def create_spiced_story (mi ti si : Nat) (trends : List String) : SpicedStory :=
  spiced_loop mi ti si 0 trends

/-- Python JSON values as produced by `json.loads`.  Floating point
results are kept in their decimal reading `float m e ~ m * 10 ^ e`
(binary64 rounding is abstracted away; the repair engine never computes
with numbers).  `nanJ` / `infJ` mirror Python's acceptance of `NaN`,
`Infinity` and `-Infinity`. -/
inductive Json : Type where
  | null : Json
  | bool : Bool → Json
  | int : Int → Json
  | float : Int → Int → Json
  | nanJ : Json
  | infJ : Bool → Json
  | str : String → Json
  | arr : List Json → Json
  | obj : List (String × Json) → Json

/-- A Python `dict` with string keys, in insertion order. -/
abbrev Jobj := List (String × Json)

/-- `d[k] = v` on an insertion-ordered association list: overwrite the
value in place if the key exists, append otherwise (Python dict
semantics). -/
def objInsert (kvs : Jobj) (k : String) (v : Json) : Jobj :=
  match kvs with
  | [] => [(k, v)]
  | (k', v') :: t => if k' = k then (k', v) :: t else (k', v') :: objInsert t k v

/-- `k in d` / `d[k]` on an insertion-ordered association list. -/
def lookupKey (k : String) : Jobj → Option Json
  | [] => none
  | (k', v) :: t => if k' = k then some v else lookupKey k t

/-- JSON structural whitespace (`json.decoder` skips exactly these). -/
def isJsonWs (c : Char) : Bool := c = ' ' || c = '\t' || c = '\n' || c = '\r'

/-- Skip JSON whitespace. -/
def skipWs (cs : List Char) : List Char := cs.dropWhile isJsonWs

/-- Hex digit value, for `\uXXXX` escapes. -/
def hexVal (c : Char) : Option Nat :=
  if c.isDigit then some (c.toNat - 48)
  else if 'a' ≤ c && c ≤ 'f' then some (c.toNat - 87)
  else if 'A' ≤ c && c ≤ 'F' then some (c.toNat - 55)
  else none

/-- Value of four hex digits. -/
def hex4 (a b c d : Char) : Option Nat := do
  let va ← hexVal a
  let vb ← hexVal b
  let vc ← hexVal c
  let vd ← hexVal d
  pure (((va * 16 + vb) * 16 + vc) * 16 + vd)

/-- The body of a JSON string literal, after the opening quote: returns
the decoded characters and the input after the closing quote.  Strict
mode: raw control characters below 0x20 are rejected; `\uXXXX` of a high
surrogate must be followed by a low surrogate (a lone surrogate, which
Python would keep as an unrepresentable lone-surrogate code unit, is
modelled as a parse failure). -/
def parseJStringL : List Char → Option (List Char × List Char)
  | [] => none
  | c :: cs =>
    if c = '"' then some ([], cs)
    else if c = '\\' then
      match cs with
      | [] => none
      | e :: cs' =>
        if e = '"' || e = '\\' || e = '/' then
          (parseJStringL cs').map (fun p => (e :: p.1, p.2))
        else if e = 'b' then (parseJStringL cs').map (fun p => (Char.ofNat 8 :: p.1, p.2))
        else if e = 'f' then (parseJStringL cs').map (fun p => (Char.ofNat 12 :: p.1, p.2))
        else if e = 'n' then (parseJStringL cs').map (fun p => ('\n' :: p.1, p.2))
        else if e = 'r' then (parseJStringL cs').map (fun p => ('\r' :: p.1, p.2))
        else if e = 't' then (parseJStringL cs').map (fun p => ('\t' :: p.1, p.2))
        else if e = 'u' then
          match cs' with
          | h1 :: h2 :: h3 :: h4 :: rest =>
            match hex4 h1 h2 h3 h4 with
            | none => none
            | some u =>
              if 0xD800 ≤ u && u < 0xDC00 then
                match rest with
                | '\\' :: 'u' :: k1 :: k2 :: k3 :: k4 :: rest2 =>
                  match hex4 k1 k2 k3 k4 with
                  | none => none
                  | some w =>
                    if 0xDC00 ≤ w && w < 0xE000 then
                      let cp := 0x10000 + (u - 0xD800) * 0x400 + (w - 0xDC00)
                      if h : cp.isValidChar then
                        (parseJStringL rest2).map (fun p => (Char.ofNatAux cp h :: p.1, p.2))
                      else none
                    else none
                | _ => none
              else if 0xDC00 ≤ u && u < 0xE000 then none
              else
                if h : u.isValidChar then
                  (parseJStringL rest).map (fun p => (Char.ofNatAux u h :: p.1, p.2))
                else none
          | _ => none
        else none
    else if c.toNat < 32 then none
    else (parseJStringL cs).map (fun p => (c :: p.1, p.2))

/-- Digits of a number chunk, as a natural number. -/
def digitsToNat (ds : List Char) : Nat :=
  ds.foldl (fun acc c => acc * 10 + (c.toNat - 48)) 0

/-- The optional exponent part `[eE][-+]?\d+` of a JSON number: returns
the exponent and the rest, or `none` to mean "no exponent consumed"
(which is how the regex treats a dangling `e`). -/
def parseExpPart (cs : List Char) : Option (Int × List Char) :=
  match cs with
  | e :: t =>
    if e = 'e' || e = 'E' then
      let (sgn, t2) : Int × List Char :=
        match t with
        | '+' :: t' => (1, t')
        | '-' :: t' => (-1, t')
        | _ => (1, t)
      let ds := t2.takeWhile Char.isDigit
      if ds.isEmpty then none
      else some (sgn * (digitsToNat ds : Int), t2.dropWhile Char.isDigit)
    else none
  | [] => none

/-- A JSON number at the head of the input, following the scanner regex
`(-?(?:0|[1-9]\d*))(\.\d+)?([eE][-+]?\d+)?`: an integer literal yields
`Json.int`, a fractional or exponent part yields the decimal reading
`Json.float`. -/
def parseJNumber (cs : List Char) : Option (Json × List Char) :=
  let signed : Bool × List Char :=
    match cs with
    | '-' :: t => (true, t)
    | _ => (false, cs)
  let neg := signed.1
  match signed.2 with
  | [] => none
  | c :: t =>
    if ¬ c.isDigit then none
    else
      let ip : List Char × List Char :=
        if c = '0' then ([c], t)
        else (c :: t.takeWhile Char.isDigit, t.dropWhile Char.isDigit)
      let frac : List Char × List Char :=
        match ip.2 with
        | '.' :: t2 =>
          let ds := t2.takeWhile Char.isDigit
          if ds.isEmpty then ([], ip.2) else (ds, t2.dropWhile Char.isDigit)
        | _ => ([], ip.2)
      let expo : Option (Int × List Char) := parseExpPart frac.2
      let rest := match expo with | some p => p.2 | none => frac.2
      let e : Int := (match expo with | some p => p.1 | none => 0) - frac.1.length
      if frac.1.isEmpty && expo.isNone then
        let n : Int := digitsToNat ip.1
        some (Json.int (if neg then -n else n), rest)
      else
        let m : Int := digitsToNat (ip.1 ++ frac.1)
        some (Json.float (if neg then -m else m) e, rest)

mutual

/-- One JSON value at the head of the input (after skipping whitespace),
mirroring `json.loads`' scanner, with explicit fuel. -/
def parseJValue : Nat → List Char → Option (Json × List Char)
  | 0, _ => none
  | fuel + 1, cs =>
    match skipWs cs with
    | [] => none
    | c :: rest =>
      if c = '"' then (parseJStringL rest).map (fun p => (Json.str ⟨p.1⟩, p.2))
      else if c = Char.ofNat 123 then parseJMembers fuel [] true rest
      else if c = '[' then parseJElems fuel [] true rest
      else if c = 't' then (consumeLit ['r', 'u', 'e'] rest).map (fun r => (Json.bool true, r))
      else if c = 'f' then (consumeLit ['a', 'l', 's', 'e'] rest).map (fun r => (Json.bool false, r))
      else if c = 'n' then (consumeLit ['u', 'l', 'l'] rest).map (fun r => (Json.null, r))
      else if c = 'N' then (consumeLit ['a', 'N'] rest).map (fun r => (Json.nanJ, r))
      else if c = 'I' then
        (consumeLit ['n', 'f', 'i', 'n', 'i', 't', 'y'] rest).map
          (fun r => (Json.infJ false, r))
      else if c = '-' then
        match rest with
        | 'I' :: rest2 =>
          (consumeLit ['n', 'f', 'i', 'n', 'i', 't', 'y'] rest2).map
            (fun r => (Json.infJ true, r))
        | _ => parseJNumber (c :: rest)
      else if c.isDigit then parseJNumber (c :: rest)
      else none

/-- The members of a JSON object, after the opening brace (`first` is true
before the first member, so that `\x7b \x7d` parses to the empty object). -/
def parseJMembers : Nat → Jobj → Bool → List Char → Option (Json × List Char)
  | 0, _, _, _ => none
  | fuel + 1, acc, first, cs =>
    match skipWs cs with
    | [] => none
    | c :: rest =>
      if c = Char.ofNat 125 && first then some (Json.obj acc.reverse, rest)
      else if c = '"' then
        match parseJStringL rest with
        | none => none
        | some (key, r1) =>
          match skipWs r1 with
          | ':' :: r2 =>
            match parseJValue fuel r2 with
            | none => none
            | some (v, r3) =>
              let acc2 := (objInsert acc.reverse ⟨key⟩ v).reverse
              match skipWs r3 with
              | ',' :: r4 => parseJMembers fuel acc2 false r4
              | c2 :: r4 =>
                if c2 = Char.ofNat 125 then some (Json.obj acc2.reverse, r4) else none
              | [] => none
          | _ => none
      else none

/-- The elements of a JSON array, after the opening bracket. -/
def parseJElems : Nat → List Json → Bool → List Char → Option (Json × List Char)
  | 0, _, _, _ => none
  | fuel + 1, acc, first, cs =>
    match skipWs cs with
    | [] => none
    | c :: rest =>
      if c = ']' && first then some (Json.arr acc.reverse, rest)
      else
        match parseJValue fuel (c :: rest) with
        | none => none
        | some (v, r1) =>
          match skipWs r1 with
          | ',' :: r2 => parseJElems fuel (v :: acc) false r2
          | ']' :: r2 => some (Json.arr (v :: acc).reverse, r2)
          | _ => none

end

/-- `json.loads`: parse one value and require only whitespace after it.
The fuel `2 * length + 2` is ample: every recursive step first consumes
at least one input character. -/
def jsonParse (s : String) : Option Json :=
  match parseJValue (2 * s.length + 2) s.data with
  | some (v, rest) => if (skipWs rest).isEmpty then some v else none
  | none => none

/-- The `required_fields` of `JSONRepairEngine._validate_structure`. -/
def required_fields : List String :=
  ["product", "audience", "tone", "description", "features", "scene"]

/-- `JSONRepairEngine._validate_structure` on a dict (the `isinstance`
half of the check is performed where the embedding matches on `Json.obj`). -/
def validate_structure (kvs : Jobj) : Bool :=
  required_fields.all (fun f => (lookupKey f kvs).isSome)

/-- `isinstance(v, dict) and _validate_structure(v)`, as an `Option`. -/
def validated (v : Json) : Option Jobj :=
  match v with
  | Json.obj kvs => if validate_structure kvs then some kvs else none
  | _ => none

/-- The content-unwrapping prologue shared by strategies 3-7: parse the
response; if it is a dict with a `"response"` key, the content is that
value, otherwise the content stays the raw response string. -/
def unwrap_content (response : String) : Json :=
  match jsonParse response with
  | some (Json.obj kvs) =>
    match lookupKey "response" kvs with
    | some v => v
    | none => Json.str response
  | _ => Json.str response

/-- `JSONRepairEngine._strategy_direct_parse`.  Unlike the later
strategies, a parse failure of the outer response aborts the strategy
(the exception is caught by the caller); `json.loads` applied to a
non-string `"response"` value raises as well. -/
def strategy_direct_parse (response : String) : Option Jobj :=
  match jsonParse response with
  | none => none
  | some v =>
    let inner : Option String :=
      match v with
      | Json.obj kvs =>
        match lookupKey "response" kvs with
        | some (Json.str c) => some c
        | some _ => none
        | none => some response
      | _ => some response
    match inner with
    | none => none
    | some c =>
      match jsonParse c with
      | some v2 => validated v2
      | none => none

/-- The brace-counting scan of `_strategy_extract_json`, started at the
first `\x7b` of the content: increment on an opening brace, decrement on
a closing one, and return the consumed slice when the count returns to
zero (no slice if it never does). -/
def brace_scan (depth : Nat) (acc : List Char) : List Char → Option (List Char)
  | [] => none
  | c :: cs =>
    if c = Char.ofNat 123 then brace_scan (depth + 1) (c :: acc) cs
    else if c = Char.ofNat 125 then
      if depth = 1 then some (c :: acc).reverse
      else brace_scan (depth - 1) (c :: acc) cs
    else brace_scan depth (c :: acc) cs

/-- `JSONRepairEngine._strategy_extract_json`: only applies to a response
that wraps a string under `"response"`; `.find` on a non-string raises
and is swallowed. -/
def strategy_extract_json (response : String) : Option Jobj :=
  match jsonParse response with
  | some (Json.obj kvs) =>
    match lookupKey "response" kvs with
    | some (Json.str content) =>
      let tailFromBrace := content.data.dropWhile (fun ch => ch ≠ Char.ofNat 123)
      if tailFromBrace.isEmpty then none
      else
        match brace_scan 0 [] tailFromBrace with
        | some sub =>
          match jsonParse ⟨sub⟩ with
          | some v2 => validated v2
          | none => none
        | none => none
    | some _ => none
    | none => none
  | _ => none

/-- The two external evaluators the engine calls out to: the `json_repair`
library (`repair_json(content, return_objects=True)`) and the standard
library's `ast.literal_eval`.  Both are outside this repository, so they
are parameters of the embedding; `none` stands for a raised exception
(always swallowed at the call sites), `some v` for a returned value. -/
structure ExternalFns where
  repairLib : Json → Option Json
  astEval : String → Option Json

/-- `JSONRepairEngine._strategy_json_repair_lib`. -/
def strategy_json_repair_lib (ext : ExternalFns) (response : String) : Option Jobj :=
  match ext.repairLib (unwrap_content response) with
  | some v => validated v
  | none => none

/-- Fix 1 of `_apply_regex_fixes`: `re.sub(r",(\s*[}\]])", r"\1", s)` -
drop a comma standing (up to whitespace) before a closing brace or
bracket.  Fuel-driven left-to-right scan; every step consumes at least
one character, so `length + 1` fuel is exact. -/
def fix_trailing_commas (fuel : Nat) (cs : List Char) : List Char :=
  match fuel, cs with
  | 0, rest => rest
  | _ + 1, [] => []
  | f + 1, c :: cs =>
    if c = ',' then
      let ws := cs.takeWhile isPySpace
      match cs.dropWhile isPySpace with
      | b :: rest =>
        if b = Char.ofNat 125 || b = ']' then ws ++ b :: fix_trailing_commas f rest
        else c :: fix_trailing_commas f cs
      | [] => c :: fix_trailing_commas f cs
    else c :: fix_trailing_commas f cs

/-- The lookahead `(?=[^,}\]]*")` of fix 2: a quote occurs ahead before
any of `,`, `\x7d`, `]`. -/
def aheadQuote : List Char → Bool
  | [] => false
  | c :: cs =>
    if c = '"' then true
    else if c = ',' || c = Char.ofNat 125 || c = ']' then false
    else aheadQuote cs

/-- Fix 2 of `_apply_regex_fixes`:
`re.sub(r"(?<!\\)\"(?=[^,}\]]*\")", "\\\"", s)` - put a backslash before
every quote that is not already preceded by one and is followed by
another quote before any of `,`, `\x7d`, `]`.  The lookbehind inspects
the original previous character, threaded through the scan. -/
def fix_unescaped_quotes (prevBackslash : Bool) : List Char → List Char
  | [] => []
  | c :: cs =>
    if c = '"' && !prevBackslash && aheadQuote cs then
      '\\' :: '"' :: fix_unescaped_quotes false cs
    else c :: fix_unescaped_quotes (c = '\\') cs

/-- Fix 3 of `_apply_regex_fixes` as it exists in the checked-in file:
the intended smart-quote normalisation has degenerated into two identity
replacements of `"` by `"`, and (because the apostrophe line reparses as
one call with a triple-quoted needle) a replacement of the literal text
`, "'").replace(` by a single apostrophe. -/
def fix_smart_quotes (s : String) : String :=
  pyReplace (pyReplace (pyReplace s "\"" "\"") "\"" "\"") ", \"\x27\").replace(" "\x27"

/-- Fix 4 of `_apply_regex_fixes`: `re.sub(r"(\w+)\s*:", "\"\1\":", s)` -
quote bare keys.  The greedy `\w+` run must be maximal (a shorter run
would leave a word character where the colon is required); on a failed
match the scan advances one character, so runs are retried at every
suffix exactly as `re.sub` does. -/
def fix_bare_keys (fuel : Nat) (cs : List Char) : List Char :=
  match fuel, cs with
  | 0, rest => rest
  | _ + 1, [] => []
  | f + 1, c :: cs =>
    if isWordChar c then
      match (cs.dropWhile isWordChar).dropWhile isPySpace with
      | ':' :: r2 =>
        '"' :: (c :: cs.takeWhile isWordChar) ++ '"' :: ':' :: fix_bare_keys f r2
      | _ => c :: fix_bare_keys f cs
    else c :: fix_bare_keys f cs

/-- Fix 5 of `_apply_regex_fixes`: `re.sub(r"'([^']*)'", "\"\1\"", s)` -
convert single-quoted runs to double-quoted, pairing apostrophes from the
left. -/
def fix_single_quotes (fuel : Nat) (cs : List Char) : List Char :=
  match fuel, cs with
  | 0, rest => rest
  | _ + 1, [] => []
  | f + 1, c :: cs =>
    if c = Char.ofNat 39 then
      let g := cs.takeWhile (fun x => x ≠ Char.ofNat 39)
      match cs.dropWhile (fun x => x ≠ Char.ofNat 39) with
      | _ :: rest => '"' :: g ++ '"' :: fix_single_quotes f rest
      | [] => c :: fix_single_quotes f cs
    else c :: fix_single_quotes f cs

/-- Fix 6 of `_apply_regex_fixes`: keep a character iff `ord(c) >= 32` or
it is a newline or tab. -/
def fix_control_chars (cs : List Char) : List Char :=
  cs.filter (fun c => 32 ≤ c.toNat || c = '\n' || c = '\t')

/-- The capture of `\s*([^,\]]+)\s*` over a span bounded by the next
pattern character: the greedy `\s*` takes the maximal whitespace prefix
and the group the (nonempty) remainder; when the span is all whitespace,
backtracking hands exactly its last character to the group. -/
def groupOfSpan (sp : List Char) : Option (List Char) :=
  let g := sp.dropWhile isPySpace
  if g.isEmpty then
    match sp.reverse with
    | l :: _ => some [l]
    | [] => none
  else some g

/-- The span from the current position to the first `,`, failing if a
`]` intervenes (both are excluded from the element class of fix 7). -/
def spanToComma (cs : List Char) : Option (List Char × List Char) :=
  let sp := cs.takeWhile (fun c => c ≠ ',' && c ≠ ']')
  match cs.dropWhile (fun c => c ≠ ',' && c ≠ ']') with
  | ',' :: rest => some (sp, rest)
  | _ => none

/-- The span from the current position to the first `]`, failing if a
`,` intervenes. -/
def spanToClose (cs : List Char) : Option (List Char × List Char) :=
  let sp := cs.takeWhile (fun c => c ≠ ',' && c ≠ ']')
  match cs.dropWhile (fun c => c ≠ ',' && c ≠ ']') with
  | ']' :: rest => some (sp, rest)
  | _ => none

/-- One attempted match of fix 7's pattern
`\[\s*([^,\]]+)\s*,\s*([^,\]]+)\s*\]` at a `[`: on success, the
replacement `["g1", "g2"]` and the rest of the input. -/
def matchArrayAt (cs : List Char) : Option (List Char × List Char) :=
  match cs with
  | '[' :: t =>
    match spanToComma t with
    | none => none
    | some (sp1, afterComma) =>
      match groupOfSpan sp1 with
      | none => none
      | some g1 =>
        match spanToClose afterComma with
        | none => none
        | some (sp2, rest) =>
          match groupOfSpan sp2 with
          | none => none
          | some g2 =>
            some ('[' :: '"' :: g1 ++ '"' :: ',' :: ' ' :: '"' :: g2 ++ ['"', ']'], rest)
  | _ => none

/-- Fix 7 of `_apply_regex_fixes`:
`re.sub(r"\[\s*([^,\]]+)\s*,\s*([^,\]]+)\s*\]", "[\"\1\", \"\2\"]", s)`. -/
def fix_array_elems (fuel : Nat) (cs : List Char) : List Char :=
  match fuel, cs with
  | 0, rest => rest
  | _ + 1, [] => []
  | f + 1, c :: t =>
    if c = '[' then
      match matchArrayAt (c :: t) with
      | some (rep, rest) => rep ++ fix_array_elems f rest
      | none => c :: fix_array_elems f t
    else c :: fix_array_elems f t

/-- `JSONRepairEngine._apply_regex_fixes`: the seven fixes in source
order. -/
def apply_regex_fixes (content : String) : String :=
  let r1 : String := ⟨fix_trailing_commas (content.length + 1) content.data⟩
  let r2 : String := ⟨fix_unescaped_quotes false r1.data⟩
  let r3 := fix_smart_quotes r2
  let r4 : String := ⟨fix_bare_keys (r3.length + 1) r3.data⟩
  let r5 : String := ⟨fix_single_quotes (r4.length + 1) r4.data⟩
  let r6 : String := ⟨fix_control_chars r5.data⟩
  ⟨fix_array_elems (r6.length + 1) r6.data⟩

/-- `JSONRepairEngine._strategy_regex_repair`: regex-sub on a non-string
content raises and is swallowed. -/
def strategy_regex_repair (response : String) : Option Jobj :=
  match unwrap_content response with
  | Json.str c =>
    match jsonParse (apply_regex_fixes c) with
    | some v => validated v
    | none => none
  | _ => none

/-- The slice `content[content.find("\x7b") : content.rfind("\x7d") + 1]`
of `_strategy_ast_repair`, or `none` when either index is `-1` (the
Python slice semantics make the result empty when the end precedes the
start, which natural subtraction reproduces). -/
def ast_extract_slice (c : String) : Option String :=
  let cs := c.data
  let pre := cs.takeWhile (fun ch => ch ≠ Char.ofNat 123)
  if pre.length = cs.length then none
  else
    let post := cs.reverse.takeWhile (fun ch => ch ≠ Char.ofNat 125)
    if post.length = cs.length then none
    else some ⟨(cs.drop pre.length).take (cs.length - post.length - pre.length)⟩

/-- `JSONRepairEngine._strategy_ast_repair`. -/
def strategy_ast_repair (ext : ExternalFns) (response : String) : Option Jobj :=
  match unwrap_content response with
  | Json.str c =>
    match ast_extract_slice c with
    | some ds =>
      match ext.astEval ds with
      | some v => validated v
      | none => none
    | none => none
  | _ => none

/-- The common head `"key"\s*:\s*` of the field patterns of
`_strategy_template_reconstruction`, matched at the current position:
returns the input after the colon and following whitespace. -/
def afterKeyColon (key : List Char) (cs : List Char) : Option (List Char) :=
  match consumeLit ('"' :: key ++ ['"']) cs with
  | none => none
  | some r1 =>
    match r1.dropWhile isPySpace with
    | ':' :: r2 => some (r2.dropWhile isPySpace)
    | _ => none

/-- `"([^"]*)"` at the current position: the quoted group and the rest. -/
def quotedGroupAt : List Char → Option (List Char × List Char)
  | '"' :: t =>
    let g := t.takeWhile (fun c => c ≠ '"')
    match t.dropWhile (fun c => c ≠ '"') with
    | _ :: rest => some (g, rest)
    | [] => none
  | _ => none

/-- `(\[[^\]]*\])` at the current position: the group including its
brackets. -/
def bracketGroupAt : List Char → Option (List Char)
  | '[' :: t =>
    let g := t.takeWhile (fun c => c ≠ ']')
    match t.dropWhile (fun c => c ≠ ']') with
    | _ :: _ => some ('[' :: g ++ [']'])
    | [] => none
  | _ => none

/-- `re.search(r"\"key\"\s*:\s*\"([^\"]*)\"", content)`: first position
where the whole pattern matches. -/
def findStringField (key : List Char) : List Char → Option String
  | [] => none
  | c :: cs =>
    match (afterKeyColon key (c :: cs)).bind quotedGroupAt with
    | some (g, _) => some ⟨g⟩
    | none => findStringField key cs

/-- Result of the audience pattern's alternation
`(?:"([^"]*)"|(\[[^\]]*\]))`: group 1 or group 2. -/
inductive AudMatch : Type where
  | strA : String → AudMatch
  | arrA : String → AudMatch

/-- `re.search(r"\"audience\"\s*:\s*(?:\"([^\"]*)\"|(\[[^\]]*\]))", content)`. -/
def findAudienceField : List Char → Option AudMatch
  | [] => none
  | c :: cs =>
    match afterKeyColon ['a', 'u', 'd', 'i', 'e', 'n', 'c', 'e'] (c :: cs) with
    | some r =>
      match quotedGroupAt r with
      | some (g, _) => some (AudMatch.strA ⟨g⟩)
      | none =>
        match bracketGroupAt r with
        | some g => some (AudMatch.arrA ⟨g⟩)
        | none => findAudienceField cs
    | none => findAudienceField cs

/-- `re.search(r"\"features\"\s*:\s*(\[[^\]]*\])", content)`. -/
def findFeaturesField : List Char → Option String
  | [] => none
  | c :: cs =>
    match afterKeyColon ['f', 'e', 'a', 't', 'u', 'r', 'e', 's'] (c :: cs) with
    | some r =>
      match bracketGroupAt r with
      | some g => some ⟨g⟩
      | none => findFeaturesField cs
    | none => findFeaturesField cs

/-- The manual audience fallback
`audience_match.group(2).strip("[]").split(",")`: a list of raw pieces. -/
def audienceManualSplit (b : String) : Json :=
  Json.arr ((pySplit (String.mk (pyStripSetL ['[', ']'] b.data)) ",").map Json.str)

/-- The manual features fallback
`[f.strip().strip("\"'") for f in features_str.split(",")]`. -/
def featuresManualSplit (b : String) : Json :=
  Json.arr ((pySplit (String.mk (pyStripSetL ['[', ']'] b.data)) ",").map
    (fun p => Json.str ⟨pyStripSetL ['"', Char.ofNat 39] (pyStrip p).data⟩))

/-- The `fields` dict assembled by `_strategy_template_reconstruction`,
one regex per field in source order.  An audience string group that is
empty is skipped (`if audience_match.group(1):` is false on `""`). -/
def strategy_template_fields (content : String) : Jobj :=
  let cs := content.data
  let f1 : Jobj :=
    match findStringField ['p', 'r', 'o', 'd', 'u', 'c', 't'] cs with
    | some v => objInsert [] "product" (Json.str v)
    | none => []
  let f2 :=
    match findAudienceField cs with
    | some (AudMatch.strA s) =>
      if s ≠ "" then objInsert f1 "audience" (Json.str s) else f1
    | some (AudMatch.arrA b) =>
      match jsonParse b with
      | some j => objInsert f1 "audience" j
      | none => objInsert f1 "audience" (audienceManualSplit b)
    | none => f1
  let f3 :=
    match findStringField ['t', 'o', 'n', 'e'] cs with
    | some v => objInsert f2 "tone" (Json.str v)
    | none => f2
  let f4 :=
    match findStringField ['d', 'e', 's', 'c', 'r', 'i', 'p', 't', 'i', 'o', 'n'] cs with
    | some v => objInsert f3 "description" (Json.str v)
    | none => f3
  let f5 :=
    match findFeaturesField cs with
    | some b =>
      match jsonParse b with
      | some j => objInsert f4 "features" j
      | none => objInsert f4 "features" (featuresManualSplit b)
    | none => f4
  match findStringField ['s', 'c', 'e', 'n', 'e'] cs with
  | some v => objInsert f5 "scene" (Json.str v)
  | none => f5

/-- `JSONRepairEngine._strategy_template_reconstruction`. -/
def strategy_template_reconstruction (response : String) : Option Jobj :=
  match unwrap_content response with
  | Json.str c =>
    let fields := strategy_template_fields c
    if validate_structure fields then some fields else none
  | _ => none

/-- The fixed part of `_strategy_default_fallback` plus the
product-line extraction (`line.split(":")[-1].strip().strip("\"'")` on
the first line containing `product` and a colon). -/
def default_fallback_record (content : String) : Jobj :=
  let base : Jobj :=
    [("product", Json.str "Unknown Product"),
     ("audience", Json.str "general"),
     ("tone", Json.str "neutral"),
     ("description",
       Json.str (if content ≠ "" then pyTake content 200
                 else "Unable to generate description")),
     ("features", Json.arr [Json.str "feature not available"]),
     ("scene", Json.str "A simple product showcase scene")]
  match (pySplit content "\n").find?
      (fun l => containsSub "product" (pyLower l) && containsSub ":" l) with
  | some line =>
    let lastPart := (pySplit line ":").getLastD ""
    objInsert base "product"
      (Json.str ⟨pyStripSetL ['"', Char.ofNat 39] (pyStrip lastPart).data⟩)
  | none => base

/-- `JSONRepairEngine._strategy_default_fallback`.  Unwrapped non-string
content makes the slicing/splitting calls raise (`none`); this is the one
strategy whose exception escapes `repair_json_response`. -/
def strategy_default_fallback (response : String) : Option Jobj :=
  match unwrap_content response with
  | Json.str content => some (default_fallback_record content)
  | _ => none

/-- The `if parsed:` guard of `repair_json_response`: an empty dict is
falsy and falls through to the next strategy. -/
def nonempty_dict (o : Option Jobj) : Option Jobj :=
  match o with
  | some d => if d.isEmpty then none else some d
  | none => none

/-- `JSONRepairEngine.repair_json_response`: the seven strategies in
order; `none` means an exception escapes (only possible from the
terminal fallback strategy). -/
def repair_json_response (ext : ExternalFns) (response : String) : Option Jobj :=
  nonempty_dict (strategy_direct_parse response) <|>
  nonempty_dict (strategy_extract_json response) <|>
  nonempty_dict (strategy_json_repair_lib ext response) <|>
  nonempty_dict (strategy_regex_repair response) <|>
  nonempty_dict (strategy_ast_repair ext response) <|>
  nonempty_dict (strategy_template_reconstruction response) <|>
  strategy_default_fallback response

/-- The `except` record of `parse_llm_json_with_repair`, verbatim. -/
def repair_error_record : Jobj :=
  [("product", Json.str "Error in processing"),
   ("audience", Json.str "general"),
   ("tone", Json.str "neutral"),
   ("description", Json.str "Unable to process the response properly"),
   ("features", Json.arr [Json.str "processing error"]),
   ("scene", Json.str "A basic product scene")]

/-- `parse_llm_json_with_repair`: the public entry point; any exception
from the engine is converted into the fixed error record. -/
def parse_llm_json_with_repair (ext : ExternalFns) (response : String) : Jobj :=
  (repair_json_response ext response).getD repair_error_record

/-- Modelled from the spec: the smart-quote/apostrophe normalisation that
§4.8 of the claim list describes ("normalize smart quotes/apostrophes to
ASCII equivalents") - the checked-in code's fix 3 does not actually do
this (see `fix_smart_quotes`). -/
def spec_smart_quotes (s : String) : String :=
  pyReplace (pyReplace (pyReplace (pyReplace s "“" "\"") "”" "\"") "‘" "\x27")
    "’" "\x27"

/-- Modelled from the spec: the five fix-up steps of claim C9 in the
order the spec lists them (trailing commas, control characters, smart
quotes, bare keys, single quotes). -/
def spec_order_regex_fixes (content : String) : String :=
  let r1 : String := ⟨fix_trailing_commas (content.length + 1) content.data⟩
  let r2 : String := ⟨fix_control_chars r1.data⟩
  let r3 := spec_smart_quotes r2
  let r4 : String := ⟨fix_bare_keys (r3.length + 1) r3.data⟩
  ⟨fix_single_quotes (r4.length + 1) r4.data⟩

/-- Modelled from the spec: strategy 4 as claim C9 describes it - apply
`spec_order_regex_fixes` to the unwrapped content and parse the result. -/
def spec_strategy_regex_repair (response : String) : Option Jobj :=
  match unwrap_content response with
  | Json.str c =>
    match jsonParse (spec_order_regex_fixes c) with
    | some v => validated v
    | none => none
  | _ => none

/-- An external-function instantiation on which both outside evaluators
always raise (usable wherever the concrete claim input never yields a
dict from them anyway). -/
def extNone : ExternalFns := ⟨fun _ => none, fun _ => none⟩

/-- Every entry of the trends cache (if any) passes the safety filter. -/
def cache_all_safe (st : TrendsState) : Bool :=
  match st.cached_trends with
  | none => true
  | some ts => ts.all (fun t => !(is_sensitive_topic t))

/-- A candidate that `create_spiced_story` rejects: unsafe before or
after cleaning. -/
def trend_unsafe_either (t : String) : Bool :=
  is_sensitive_topic t || is_sensitive_topic (clean_trend_title t)

/-- Valid JSON whose `product` value is `null` (all six required keys
present). -/
def cNullInput : String :=
  "\x7b\"product\": null, \"audience\": \"a\", \"tone\": \"t\", \"description\": \"d\", \"features\": [], \"scene\": \"s\"\x7d"

/-- Strictly valid JSON with exactly the six required fields. -/
def cValidInput : String :=
  "\x7b\"product\": \"Widget\", \"audience\": \"teens\", \"tone\": \"fun\", \"description\": \"Great\", \"features\": [\"a\"], \"scene\": \"a room\"\x7d"

/-- Six bare keys with double-quoted values: valid after key quoting, but
the engine's fix 2 escapes the value quotes first. -/
def cRegexInput : String :=
  "\x7bproduct: \"x\", audience: \"a\", tone: \"t\", description: \"d\", features: \"f\", scene: \"s\"\x7d"

/-- A bare key split by a NUL character: the position of the
control-character fix relative to key quoting is observable here. -/
def cCtlInput : String := "ab\x00cd:"

/-- Six single-quoted keys and values: repaired by fix 5 alone. -/
def cSingleQuoted : String :=
  "\x7b\x27product\x27: \x27x\x27, \x27audience\x27: \x27a\x27, \x27tone\x27: \x27t\x27, \x27description\x27: \x27d\x27, \x27features\x27: \x27f\x27, \x27scene\x27: \x27s\x27\x7d"

/-- The trend list of end-to-end scenario D. -/
def scenarioD : List String :=
  ["Senator X killed in attack", "Sustainable coffee brewing tips",
   "Local bakery wins award"]

/-- Five sources that each yield one unsafe candidate (mirroring the five
fetch functions of `fetch_trends_multi_source` all returning unsafe
content). -/
def unsafeSources : List (Option (List String)) :=
  [some ["Senator X killed in attack"], some ["Senator X killed in attack"],
   some ["Senator X killed in attack"], some ["Senator X killed in attack"],
   some ["Senator X killed in attack"]]

/-! ## Helper lemmas -/

/-- Every entry of the 20-topic curated fallback list passes the safety
filter. -/
theorem fallback_topics_all_safe :
    fallback_safe_topics.all (fun t => !(is_sensitive_topic t)) = true := by decide

/-- Every entry of the 10-topic padding list passes the safety filter. -/
theorem safe_fallbacks_all_safe :
    get_safe_fallback_trends.all (fun t => !(is_sensitive_topic t)) = true := by decide

/-- A candidate whose stripped form is flagged by the safety filter never
survives the structural filter. -/
theorem structural_pass_of_sensitive {t : String}
    (h : is_sensitive_topic (pyStrip t) = true) : structural_pass t = none := by
  unfold structural_pass
  split
  · rfl
  · simp only [h, if_true]

/-- If every candidate is dropped, the collection loop returns its
accumulator. -/
theorem filter_loop_all_none {ts : List String} (acc : List String)
    (h : ∀ t ∈ ts, structural_pass t = none) : filter_loop acc ts = acc.reverse := by
  induction ts with
  | nil => rfl
  | cons t ts ih =>
    have ht := h t (List.mem_cons_self t ts)
    simp only [filter_loop, ht]
    exact ih (fun x hx => h x (List.mem_cons_of_mem t hx))

/-- On an all-safe list the final safety loop keeps everything. -/
theorem final_safety_all_safe {ts : List String} (acc : List String) (att : Nat)
    (h : ∀ t ∈ ts, is_sensitive_topic t = false) :
    final_safety_loop acc att ts = acc.reverse ++ ts := by
  induction ts generalizing acc with
  | nil => simp [final_safety_loop]
  | cons t ts ih =>
    have ht := h t (List.mem_cons_self t ts)
    simp only [final_safety_loop, ht, Bool.false_eq_true, if_false]
    rw [ih (t :: acc) (fun x hx => h x (List.mem_cons_of_mem t hx))]
    simp

/-- Everything the final safety loop returns is safe, provided the
accumulator is. -/
theorem final_safety_mem_safe {ts : List String} {acc : List String} {att : Nat}
    (hacc : ∀ t ∈ acc, is_sensitive_topic t = false) :
    ∀ t ∈ final_safety_loop acc att ts, is_sensitive_topic t = false := by
  induction ts generalizing acc att with
  | nil =>
    intro t ht
    exact hacc t (List.mem_reverse.mp ht)
  | cons x ts ih =>
    intro t ht
    by_cases hx : is_sensitive_topic x = true
    · simp only [final_safety_loop, hx, if_true] at ht
      split at ht
      · exact hacc t (List.mem_reverse.mp ht)
      · exact ih hacc t ht
    · have hx' : is_sensitive_topic x = false := by
        cases hxx : is_sensitive_topic x
        · rfl
        · exact absurd hxx hx
      simp only [final_safety_loop, hx', Bool.false_eq_true, if_false] at ht
      refine ih ?_ t ht
      intro y hy
      rcases List.mem_cons.mp hy with rfl | hy
      · exact hx'
      · exact hacc y hy

/-! ## Claim C2 -/

/-- C2.  Safety-filter monotonicity: any string whose lowercasing
contains a blocklist keyword as a substring, or whose lowercasing matches
one of the fixed word-boundary danger patterns, is flagged by
`_is_sensitive_topic`; and every entry of the fixed curated
fallback trend list (the 20 `safe_topics` of `_get_fallback_trends`)
passes the filter. -/
theorem safety_filter_monotonicity :
    (∀ t : String,
      ((avoid_keywords.any fun k => containsSub k (pyLower t)) = true ∨
        (sensitive_patterns.any fun ws => wbSearch ws (pyLower t)) = true) →
      is_sensitive_topic t = true) ∧
    ∀ e ∈ fallback_safe_topics, is_sensitive_topic e = false := by
  constructor
  · intro t h
    rcases h with h | h <;> simp [is_sensitive_topic, h]
  · intro e he
    have h := List.all_eq_true.mp fallback_topics_all_safe e he
    simpa using h

/-- Witness for C2 at concrete inputs: "killer" contains the blocklisted
substring "kill"; the first curated fallback entry is accepted. -/
theorem safety_filter_monotonicity_witness :
    is_sensitive_topic "Midnight killer spree" = true ∧
    is_sensitive_topic "Summer vacation destinations" = false :=
  ⟨safety_filter_monotonicity.1 "Midnight killer spree" (Or.inl (by decide)),
   safety_filter_monotonicity.2 "Summer vacation destinations" (by decide)⟩

/-! ## Claim C6 -/

/-- From "no blocklist keyword occurs in any listed word" (as a Bool
`any`) to the pointwise statement. -/
theorem no_blocked_sub_of_any_false {l : List String}
    (hl : ∀ w ∈ l, (avoid_keywords.any fun h => containsSub h w) = false) :
    ∀ w ∈ l, ∀ k ∈ avoid_keywords, containsSub k w = false := by
  intro w hw k hk
  by_contra hck
  have hc : containsSub k w = true := by
    cases hcc : containsSub k w
    · exact absurd hcc hck
    · rfl
  have hany : (avoid_keywords.any fun h => containsSub h w) = true :=
    List.any_eq_true.mpr ⟨k, hk, hc⟩
  rw [hl w hw] at hany
  cases hany

/-- C6.  Keyword safety: `extract_hook_keywords` returns at most three
tokens, and no returned token contains a blocklist keyword as a substring
(the three hard-coded default token lists are themselves clean, and the
extraction path filters with exactly this substring test). -/
theorem keyword_safety (trend : String) :
    (extract_hook_keywords trend).length ≤ 3 ∧
    ∀ w ∈ extract_hook_keywords trend, ∀ k ∈ avoid_keywords,
      containsSub k w = false := by
  by_cases h1 : is_sensitive_topic trend = true
  · simp only [extract_hook_keywords, h1, if_true]
    exact ⟨by decide, no_blocked_sub_of_any_false (by decide)⟩
  · rw [Bool.not_eq_true] at h1
    by_cases h2 : is_sensitive_topic (clean_trend_title trend) = true
    · simp only [extract_hook_keywords, h1, h2, Bool.false_eq_true, if_true, if_false]
      exact ⟨by decide, no_blocked_sub_of_any_false (by decide)⟩
    · rw [Bool.not_eq_true] at h2
      simp only [extract_hook_keywords, h1, h2, Bool.false_eq_true, if_false]
      set kws := (word_runs_go [] (pyLower (clean_trend_title trend)).data).filter
        (fun w => 2 < w.length && !(stop_words.contains w) &&
          !(avoid_keywords.any (fun h => containsSub h w))) with hkws
      by_cases h3 : kws.isEmpty = true
      · simp only [h3, if_true]
        exact ⟨by decide, no_blocked_sub_of_any_false (by decide)⟩
      · rw [Bool.not_eq_true] at h3
        simp only [h3, Bool.false_eq_true, if_false]
        constructor
        · rw [List.length_take]
          exact min_le_left 3 _
        · refine no_blocked_sub_of_any_false ?_
          intro w hw
          have hw' : w ∈ kws := List.take_subset _ _ hw
          have hp := (List.mem_filter.mp hw').2
          simp only [Bool.and_eq_true, Bool.not_eq_true'] at hp
          exact hp.2

/-! ## Claim C5 -/

/-- One unsafe candidate is skipped while fewer than three attempts have
been made. -/
theorem spiced_loop_skip (mi ti si att : Nat) (t : String) (l : List String)
    (ht : trend_unsafe_either t = true) (hlt : ¬ (3 ≤ att + 1)) :
    spiced_loop mi ti si att (t :: l) = spiced_loop mi ti si (att + 1) l := by
  cases hsens : is_sensitive_topic t with
  | true =>
    simp only [spiced_loop, hsens, if_true]
    rw [if_neg hlt]
  | false =>
    have hclean : is_sensitive_topic (clean_trend_title t) = true := by
      unfold trend_unsafe_either at ht
      rw [hsens] at ht
      simpa using ht
    simp only [spiced_loop, hsens, Bool.false_eq_true, if_false, hclean, if_true]
    rw [if_neg hlt]

/-- An unsafe candidate at the third attempt triggers the break to the
fallback story. -/
theorem spiced_loop_break (mi ti si att : Nat) (t : String) (l : List String)
    (ht : trend_unsafe_either t = true) (hge : 3 ≤ att + 1) :
    spiced_loop mi ti si att (t :: l) = fallback_story := by
  cases hsens : is_sensitive_topic t with
  | true =>
    simp only [spiced_loop, hsens, if_true]
    rw [if_pos hge]
  | false =>
    have hclean : is_sensitive_topic (clean_trend_title t) = true := by
      unfold trend_unsafe_either at ht
      rw [hsens] at ht
      simpa using ht
    simp only [spiced_loop, hsens, Bool.false_eq_true, if_false, hclean, if_true]
    rw [if_pos hge]

/-- After at most two unsafe candidates, the first candidate that is safe
both before and after cleaning is the one accepted. -/
theorem spiced_loop_accepts (mi ti si : Nat) :
    ∀ (pre : List String) (attempts : Nat), attempts + pre.length ≤ 2 →
      (∀ t ∈ pre, trend_unsafe_either t = true) →
      ∀ (c : String) (rest : List String), trend_unsafe_either c = false →
      (spiced_loop mi ti si attempts (pre ++ c :: rest)).original_trend = c := by
  intro pre
  induction pre with
  | nil =>
    intro attempts _ _ c rest hc
    have hc1 : is_sensitive_topic c = false := by
      unfold trend_unsafe_either at hc
      cases hcc : is_sensitive_topic c
      · rfl
      · rw [hcc] at hc; simp at hc
    have hc2 : is_sensitive_topic (clean_trend_title c) = false := by
      unfold trend_unsafe_either at hc
      rw [hc1] at hc
      simpa using hc
    simp only [List.nil_append, spiced_loop, hc1, hc2, Bool.false_eq_true, if_false]
  | cons t ts ih =>
    intro attempts hlen hpre c rest hc
    have ht := hpre t (List.mem_cons_self t ts)
    have h3 : ¬ (3 ≤ attempts + 1) := by
      simp only [List.length_cons] at hlen
      omega
    have hlen' : (attempts + 1) + ts.length ≤ 2 := by
      simp only [List.length_cons] at hlen
      omega
    rw [List.cons_append, spiced_loop_skip mi ti si attempts t _ ht h3]
    exact ih (attempts + 1) hlen'
      (fun x hx => hpre x (List.mem_cons_of_mem t hx)) c rest hc

/-- C5.  `create_spiced_story` accepts the first candidate that is safe
both before and after cleaning (as long as at most two unsafe candidates
precede it), returning a story whose `original_trend` is that candidate;
it abandons after three unsafe candidates and returns the fixed fallback
story; and on scenario D's list it skips the unsafe first entry and
returns "Sustainable coffee brewing tips". -/
theorem select_with_retry_behavior :
    (∀ (mi ti si : Nat) (pre : List String) (c : String) (rest : List String),
      pre.length ≤ 2 → (∀ t ∈ pre, trend_unsafe_either t = true) →
      trend_unsafe_either c = false →
      (create_spiced_story mi ti si (pre ++ c :: rest)).original_trend = c) ∧
    (∀ (mi ti si : Nat) (t1 t2 t3 : String) (rest : List String),
      trend_unsafe_either t1 = true → trend_unsafe_either t2 = true →
      trend_unsafe_either t3 = true →
      create_spiced_story mi ti si (t1 :: t2 :: t3 :: rest) = fallback_story) ∧
    (create_spiced_story 0 0 0 scenarioD).original_trend =
      "Sustainable coffee brewing tips" := by
  refine ⟨?_, ?_, ?_⟩
  · intro mi ti si pre c rest hlen hpre hc
    exact spiced_loop_accepts mi ti si pre 0 (by simpa using hlen) hpre c rest hc
  · intro mi ti si t1 t2 t3 rest h1 h2 h3
    unfold create_spiced_story
    rw [spiced_loop_skip mi ti si 0 t1 _ h1 (by omega),
      spiced_loop_skip mi ti si 1 t2 _ h2 (by omega),
      spiced_loop_break mi ti si 2 t3 _ h3 (by omega)]
  · rfl

/-- Witness for C5: one unsafe candidate followed by a safe one; the safe
one is accepted. -/
theorem select_with_retry_behavior_witness :
    (create_spiced_story 1 2 3
        ["Senator X killed in attack", "Garden party ideas"]).original_trend =
      "Garden party ideas" :=
  select_with_retry_behavior.1 1 2 3 ["Senator X killed in attack"]
    "Garden party ideas" [] (by decide) (by decide) (by decide)

/-! ## Claims C10 and C3 -/

/-- A nonempty source whose candidates are all dropped by the structural
filter still wins the source chain: the padding entries survive the final
safety check and are returned (and cached). -/
theorem fetch_unsafe_source_result
    (sample : List String → Nat → List String) (now : Nat)
    (rest : List (Option (List String))) (st : TrendsState) (ts : List String)
    (hne : ts ≠ []) (hall : ∀ t ∈ ts, structural_pass t = none)
    (hcache : is_cache_valid now st = false) :
    fetch_trends_multi_source sample now (some ts :: rest) st =
      (get_safe_fallback_trends.take 5,
       update_cache now (get_safe_fallback_trends.take 5) st) := by
  have hfl : filter_loop [] ts = [] := filter_loop_all_none [] hall
  have hfv : filter_and_validate_trends ts = get_safe_fallback_trends.take 5 := by
    simp only [filter_and_validate_trends, hfl]
    decide
  have hEmpty : ts.isEmpty = false := by
    cases ts with
    | nil => exact absurd rfl hne
    | cons a l => rfl
  have hfinal : final_safety_loop [] 0 (get_safe_fallback_trends.take 5) =
      get_safe_fallback_trends.take 5 := by decide
  have h5 : (get_safe_fallback_trends.take 5).isEmpty = false := by decide
  unfold fetch_trends_multi_source
  rw [hcache]
  simp only [Bool.false_eq_true, if_false, fetch_loop, hEmpty, hfv, hfinal, h5]

/-- C10.  When the structural and safety filtering of one source's
candidates leaves fewer than three survivors,
`_filter_and_validate_trends` pads the result with the first five entries
of the safe fallback list; consequently a nonempty source whose
candidates are all dropped still yields a nonempty, all-safe result and
the source chain does not fall through to the next source. -/
theorem filter_padding_guarantee :
    (∀ trends : List String, (filter_loop [] trends).length < 3 →
      filter_and_validate_trends trends =
        (filter_loop [] trends ++ get_safe_fallback_trends.take 5).take 10) ∧
    (∀ (trends : List String) (sample : List String → Nat → List String)
        (now : Nat) (rest : List (Option (List String))) (st : TrendsState),
      trends ≠ [] → (∀ t ∈ trends, structural_pass t = none) →
      is_cache_valid now st = false →
      fetch_trends_multi_source sample now (some trends :: rest) st =
        (get_safe_fallback_trends.take 5,
         update_cache now (get_safe_fallback_trends.take 5) st)) ∧
    get_safe_fallback_trends.take 5 ≠ [] ∧
    ∀ t ∈ get_safe_fallback_trends.take 5, is_sensitive_topic t = false := by
  refine ⟨?_, ?_, by decide, by decide⟩
  · intro trends h
    simp only [filter_and_validate_trends, if_pos h]
  · intro trends sample now rest st h1 h2 h3
    exact fetch_unsafe_source_result sample now rest st trends h1 h2 h3

/-- Witness for C10: a single source with one unsafe candidate yields the
five padding entries. -/
theorem filter_padding_guarantee_witness :
    fetch_trends_multi_source (fun l k => l.take k) 0
        [some ["Senator X killed in attack"]] initialTrendsState =
      (get_safe_fallback_trends.take 5,
       update_cache 0 (get_safe_fallback_trends.take 5) initialTrendsState) :=
  filter_padding_guarantee.2.1 ["Senator X killed in attack"] (fun l k => l.take k)
    0 [] initialTrendsState (by decide) (by decide) (by decide)

/-- C3 counterexample: with every configured source yielding only unsafe
candidates, the fetch returns the five padding entries of
`_get_safe_fallback_trends` - not the static curated fallback list
(`safe_topics` of `_get_fallback_trends`), contrary to the claim. -/
theorem fallback_guarantee_counterexample :
    (fetch_trends_multi_source (fun l k => l.take k) 0 unsafeSources
        initialTrendsState).1 =
      ["Summer outdoor activities", "Healthy cooking recipes", "Home garden tips",
       "Pet care advice", "Travel destinations"] ∧
    (fetch_trends_multi_source (fun l k => l.take k) 0 unsafeSources
        initialTrendsState).1 ≠ fallback_safe_topics := by
  constructor
  · rfl
  · decide

/-- C3 (amended).  If every configured source yields a nonempty list of
unsafe candidates, `fetch_trends_multi_source` returns the first five
entries of the safe padding list `_get_safe_fallback_trends` - never an
empty sequence, and never a string the safety filter flags. -/
theorem fallback_guarantee_amended
    (sample : List String → Nat → List String) (now : Nat)
    (sources : List (Option (List String))) (st : TrendsState)
    (hne : sources ≠ [])
    (hsrc : ∀ src ∈ sources, ∃ ts, src = some ts ∧ ts ≠ [] ∧
      ∀ t ∈ ts, is_sensitive_topic (pyStrip t) = true)
    (hcache : is_cache_valid now st = false) :
    (fetch_trends_multi_source sample now sources st).1 =
        get_safe_fallback_trends.take 5 ∧
    (fetch_trends_multi_source sample now sources st).1 ≠ [] ∧
    ∀ t ∈ (fetch_trends_multi_source sample now sources st).1,
      is_sensitive_topic t = false := by
  obtain ⟨src, rest, rfl⟩ : ∃ a l, sources = a :: l := by
    cases sources with
    | nil => exact absurd rfl hne
    | cons a l => exact ⟨a, l, rfl⟩
  obtain ⟨ts, rfl, hts_ne, hts⟩ := hsrc src (List.mem_cons_self _ _)
  have hall : ∀ t ∈ ts, structural_pass t = none :=
    fun t ht => structural_pass_of_sensitive (hts t ht)
  rw [fetch_unsafe_source_result sample now rest st ts hts_ne hall hcache]
  exact ⟨rfl, show get_safe_fallback_trends.take 5 ≠ [] by decide,
    show ∀ t ∈ get_safe_fallback_trends.take 5, is_sensitive_topic t = false by decide⟩

/-- Witness for the amended C3 at the concrete five unsafe sources. -/
theorem fallback_guarantee_amended_witness :
    (fetch_trends_multi_source (fun l k => l.take k) 7 unsafeSources
        initialTrendsState).1 = get_safe_fallback_trends.take 5 :=
  (fallback_guarantee_amended (fun l k => l.take k) 7 unsafeSources
    initialTrendsState (by decide)
    (by
      intro src hsrc
      refine ⟨["Senator X killed in attack"], ?_, by decide, by decide⟩
      simp only [unsafeSources, List.mem_cons, List.not_mem_nil, or_false] at hsrc
      rcases hsrc with rfl | rfl | rfl | rfl | rfl <;> rfl)
    (by decide)).1

/-! ## Claim C4 -/

/-- C4.  Trends-cache safety invariant: the initial cache is (vacuously)
safe, and every call of `fetch_trends_multi_source` - the only code path
that reaches `_update_cache` - preserves "no cached entry is flagged by
the safety filter", for any source outcomes and any sampling function
that only selects elements of its input list. -/
theorem cache_safety_invariant :
    cache_all_safe initialTrendsState = true ∧
    ∀ (sample : List String → Nat → List String) (now : Nat)
      (sources : List (Option (List String))) (st : TrendsState),
      (∀ l k, ∀ x ∈ sample l k, x ∈ l) →
      cache_all_safe st = true →
      cache_all_safe (fetch_trends_multi_source sample now sources st).2 = true := by
  refine ⟨rfl, ?_⟩
  intro sample now sources st hs hst
  unfold fetch_trends_multi_source
  by_cases hc : is_cache_valid now st = true
  · rw [if_pos hc]
    exact hst
  · rw [if_neg hc]
    clear hst hc
    induction sources with
    | nil =>
      simp only [fetch_loop, update_cache, cache_all_safe]
      refine List.all_eq_true.mpr ?_
      intro x hx
      have hx' : x ∈ fallback_safe_topics := by
        simp only [get_fallback_trends] at hx
        exact hs _ _ x hx
      simpa using List.all_eq_true.mp fallback_topics_all_safe x hx'
    | cons src rest ih =>
      cases src with
      | none =>
        simp only [fetch_loop]
        exact ih
      | some trends =>
        by_cases he : trends.isEmpty = true
        · simp only [fetch_loop, he, if_true]
          exact ih
        · rw [Bool.not_eq_true] at he
          simp only [fetch_loop, he, Bool.false_eq_true, if_false]
          by_cases hf :
              (final_safety_loop [] 0 (filter_and_validate_trends trends)).isEmpty = true
          · simp only [hf, if_true]
            exact ih
          · rw [Bool.not_eq_true] at hf
            simp only [hf, Bool.false_eq_true, if_false, update_cache, cache_all_safe]
            refine List.all_eq_true.mpr ?_
            intro x hx
            have hsafe :=
              final_safety_mem_safe
                (fun t ht => absurd ht (List.not_mem_nil t)) x hx
            simpa using hsafe

/-- Witness for C4 at a concrete fetch: one failing source, one live
source. -/
theorem cache_safety_invariant_witness :
    cache_all_safe (fetch_trends_multi_source (fun l k => l.take k) 5
        [none, some ["Ice cream party"]] initialTrendsState).2 = true :=
  cache_safety_invariant.2 (fun l k => l.take k) 5 [none, some ["Ice cream party"]]
    initialTrendsState (fun _ _ _ hx => List.mem_of_mem_take hx) (by decide)

/-! ## Repair engine helper lemmas -/

/-- Looking a key up after a dict insertion. -/
theorem lookup_objInsert (f k : String) (v : Json) (kvs : Jobj) :
    lookupKey f (objInsert kvs k v) = if f = k then some v else lookupKey f kvs := by
  induction kvs with
  | nil =>
    by_cases h : f = k <;> simp_all [objInsert, lookupKey]
    exact fun hh => h hh.symm
  | cons p t ih =>
    obtain ⟨k', v'⟩ := p
    by_cases hk : k' = k <;> by_cases hf : f = k <;> by_cases hf' : k' = f <;>
      simp_all [objInsert, lookupKey]

/-- `lookupKey` succeeds exactly on the keys present. -/
theorem lookup_isSome_iff (f : String) (kvs : Jobj) :
    (lookupKey f kvs).isSome = true ↔ f ∈ kvs.map Prod.fst := by
  induction kvs with
  | nil => simp [lookupKey]
  | cons p t ih =>
    obtain ⟨k', v'⟩ := p
    by_cases h : k' = f
    · subst h
      simp [lookupKey]
    · have h' : ¬ f = k' := fun hh => h hh.symm
      simp [lookupKey, h, h', ih]

/-- A key that is absent looks up to `none`. -/
theorem lookup_eq_none_of_not_mem {f : String} {kvs : Jobj}
    (h : f ∉ kvs.map Prod.fst) : lookupKey f kvs = none := by
  cases hl : lookupKey f kvs with
  | none => rfl
  | some v =>
    exact absurd (lookup_isSome_iff f kvs |>.mp (by rw [hl]; rfl)) h


/-- Whatever `validated` lets through satisfies the validation predicate. -/
theorem validated_sound {v : Json} {d : Jobj} (h : validated v = some d) :
    validate_structure d = true := by
  cases v
  case obj kvs =>
    simp only [validated] at h
    by_cases hv : validate_structure kvs = true
    · rw [if_pos hv] at h
      cases h
      exact hv
    · rw [if_neg hv] at h
      cases h
  all_goals exact absurd h (by simp [validated])

/-- `nonempty_dict` only forwards its argument. -/
theorem nonempty_dict_eq {o : Option Jobj} {d : Jobj}
    (h : nonempty_dict o = some d) : o = some d := by
  unfold nonempty_dict at h
  cases o with
  | none => cases h
  | some x =>
    dsimp only at h
    by_cases he : x.isEmpty = true
    · rw [if_pos he] at h
      cases h
    · rw [if_neg he] at h
      exact h

/-- Strategy 1 only returns validated dicts. -/
theorem strategy_direct_parse_sound {r : String} {d : Jobj}
    (h : strategy_direct_parse r = some d) : validate_structure d = true := by
  unfold strategy_direct_parse at h
  repeat
    any_goals
      first
        | exact validated_sound h
        | exact validated_sound h.symm
        | cases h
        | split at h
        | (replace h := h.symm; split at h)
        | dsimp only at h

/-- Strategy 2 only returns validated dicts. -/
theorem strategy_extract_json_sound {r : String} {d : Jobj}
    (h : strategy_extract_json r = some d) : validate_structure d = true := by
  unfold strategy_extract_json at h
  repeat
    any_goals
      first
        | exact validated_sound h
        | exact validated_sound h.symm
        | cases h
        | split at h
        | (replace h := h.symm; split at h)
        | dsimp only at h

/-- Strategy 3 only returns validated dicts, whatever the library does. -/
theorem strategy_json_repair_lib_sound {ext : ExternalFns} {r : String} {d : Jobj}
    (h : strategy_json_repair_lib ext r = some d) : validate_structure d = true := by
  unfold strategy_json_repair_lib at h
  repeat
    any_goals
      first
        | exact validated_sound h
        | exact validated_sound h.symm
        | cases h
        | split at h
        | (replace h := h.symm; split at h)
        | dsimp only at h

/-- Strategy 4 only returns validated dicts. -/
theorem strategy_regex_repair_sound {r : String} {d : Jobj}
    (h : strategy_regex_repair r = some d) : validate_structure d = true := by
  unfold strategy_regex_repair at h
  repeat
    any_goals
      first
        | exact validated_sound h
        | exact validated_sound h.symm
        | cases h
        | split at h
        | (replace h := h.symm; split at h)
        | dsimp only at h

/-- Strategy 5 only returns validated dicts, whatever `ast.literal_eval`
returns. -/
theorem strategy_ast_repair_sound {ext : ExternalFns} {r : String} {d : Jobj}
    (h : strategy_ast_repair ext r = some d) : validate_structure d = true := by
  unfold strategy_ast_repair at h
  repeat
    any_goals
      first
        | exact validated_sound h
        | exact validated_sound h.symm
        | cases h
        | split at h
        | (replace h := h.symm; split at h)
        | dsimp only at h

/-- Strategy 6 only returns validated dicts. -/
theorem strategy_template_reconstruction_sound {r : String} {d : Jobj}
    (h : strategy_template_reconstruction r = some d) :
    validate_structure d = true := by
  unfold strategy_template_reconstruction at h
  repeat
    any_goals
      first
        | (cases h; assumption)
        | (cases h.symm; assumption)
        | cases h
        | split at h
        | (replace h := h.symm; split at h)
        | dsimp only at h

/-- The fallback record always carries the six required keys (the
product-line extraction only overwrites an existing key). -/
theorem default_fallback_validates (content : String) :
    validate_structure (default_fallback_record content) = true := by
  unfold default_fallback_record
  cases hf : (pySplit content "\n").find?
      (fun l => containsSub "product" (pyLower l) && containsSub ":" l) with
  | none => simp [validate_structure, required_fields, lookupKey]
  | some line => simp [validate_structure, required_fields, lookupKey, lookup_objInsert]

/-- Strategy 7 only returns the (validated) fallback record. -/
theorem strategy_default_fallback_sound {r : String} {d : Jobj}
    (h : strategy_default_fallback r = some d) : validate_structure d = true := by
  unfold strategy_default_fallback at h
  split at h
  · cases h
    exact default_fallback_validates _
  · cases h

/-- Whatever the engine returns normally (without raising) carries the
six required keys. -/
theorem repair_some_validates {ext : ExternalFns} {r : String} {d : Jobj}
    (h : repair_json_response ext r = some d) : validate_structure d = true := by
  unfold repair_json_response at h
  cases h1 : nonempty_dict (strategy_direct_parse r) with
  | some x =>
    rw [h1, Option.some_orElse] at h
    cases h
    exact strategy_direct_parse_sound (nonempty_dict_eq h1)
  | none =>
    rw [h1, Option.none_orElse] at h
    cases h2 : nonempty_dict (strategy_extract_json r) with
    | some x =>
      rw [h2, Option.some_orElse] at h
      cases h
      exact strategy_extract_json_sound (nonempty_dict_eq h2)
    | none =>
      rw [h2, Option.none_orElse] at h
      cases h3 : nonempty_dict (strategy_json_repair_lib ext r) with
      | some x =>
        rw [h3, Option.some_orElse] at h
        cases h
        exact strategy_json_repair_lib_sound (nonempty_dict_eq h3)
      | none =>
        rw [h3, Option.none_orElse] at h
        cases h4 : nonempty_dict (strategy_regex_repair r) with
        | some x =>
          rw [h4, Option.some_orElse] at h
          cases h
          exact strategy_regex_repair_sound (nonempty_dict_eq h4)
        | none =>
          rw [h4, Option.none_orElse] at h
          cases h5 : nonempty_dict (strategy_ast_repair ext r) with
          | some x =>
            rw [h5, Option.some_orElse] at h
            cases h
            exact strategy_ast_repair_sound (nonempty_dict_eq h5)
          | none =>
            rw [h5, Option.none_orElse] at h
            cases h6 : nonempty_dict (strategy_template_reconstruction r) with
            | some x =>
              rw [h6, Option.some_orElse] at h
              cases h
              exact strategy_template_reconstruction_sound (nonempty_dict_eq h6)
            | none =>
              rw [h6, Option.none_orElse] at h
              exact strategy_default_fallback_sound h

/-! ## Claim C1 -/

/-- C1 counterexample: on valid JSON carrying `"product": null` (all six
required keys present), strategy 1 returns the parsed dict unchanged, so
the public repair function returns a record whose `product` field is
null - contradicting "no field null". -/
theorem repair_totality_counterexample :
    lookupKey "product" (parse_llm_json_with_repair extNone cNullInput) =
      some Json.null := rfl

/-- C1 (amended).  Totality of the repair engine: for every input string
and every behaviour of the two external evaluators, the public
`parse_llm_json_with_repair` returns a record containing all six required
keys, and never raises (the engine's only escaping exception - the
terminal fallback slicing non-string wrapped content - is caught and
replaced by the fixed error record).  Field values are not normalised:
a null supplied by the input is returned as-is. -/
theorem repair_totality (ext : ExternalFns) (response : String) :
    validate_structure (parse_llm_json_with_repair ext response) = true := by
  unfold parse_llm_json_with_repair
  cases h : repair_json_response ext response with
  | none => decide
  | some d => exact repair_some_validates h

/-! ## Claim C7 -/

/-- C7.  Identity on valid input: if the input parses as a JSON object
whose keys are exactly the six required fields, the repair function
returns exactly the parsed fields (strategy 1 short-circuits; no value is
mutated). -/
theorem repair_identity_on_valid (ext : ExternalFns) (s : String) (kvs : Jobj)
    (h1 : jsonParse s = some (Json.obj kvs))
    (h2 : (kvs.map Prod.fst).Perm required_fields) :
    parse_llm_json_with_repair ext s = kvs := by
  have hresp : lookupKey "response" kvs = none := by
    apply lookup_eq_none_of_not_mem
    intro hmem
    have hmem2 : "response" ∈ required_fields := h2.mem_iff.mp hmem
    simp [required_fields] at hmem2
  have hval : validate_structure kvs = true := by
    refine List.all_eq_true.mpr ?_
    intro f hf
    exact (lookup_isSome_iff f kvs).mpr (h2.mem_iff.mpr hf)
  have hempty : kvs.isEmpty = false := by
    cases kvs with
    | nil =>
      have := h2.length_eq
      simp [required_fields] at this
    | cons p t => rfl
  have hs1 : strategy_direct_parse s = some kvs := by
    unfold strategy_direct_parse
    rw [h1]
    dsimp only
    rw [hresp]
    dsimp only
    rw [h1]
    dsimp only [validated]
    rw [if_pos hval]
  have hnd : nonempty_dict (strategy_direct_parse s) = some kvs := by
    rw [hs1]
    unfold nonempty_dict
    dsimp only
    rw [if_neg (by rw [hempty]; exact fun hh => nomatch hh)]
  unfold parse_llm_json_with_repair repair_json_response
  rw [hnd, Option.some_orElse]
  rfl

/-- Witness for C7 at a concrete strictly-valid six-field JSON object. -/
theorem repair_identity_on_valid_witness :
    parse_llm_json_with_repair extNone cValidInput =
      [("product", Json.str "Widget"), ("audience", Json.str "teens"),
       ("tone", Json.str "fun"), ("description", Json.str "Great"),
       ("features", Json.arr [Json.str "a"]), ("scene", Json.str "a room")] :=
  repair_identity_on_valid extNone cValidInput
    [("product", Json.str "Widget"), ("audience", Json.str "teens"),
     ("tone", Json.str "fun"), ("description", Json.str "Great"),
     ("features", Json.arr [Json.str "a"]), ("scene", Json.str "a room")]
    rfl (by decide)

/-! ## Claim C8 -/

/-- C8 counterexample: for input "not json at all" all of strategies 1-6
fail and the terminal fallback fires, but its `scene` value is
"A simple product showcase scene", not the "A simple product scene" the
claim states. -/
theorem fallback_record_counterexample :
    lookupKey "scene" (parse_llm_json_with_repair extNone "not json at all") =
      some (Json.str "A simple product showcase scene") ∧
    "A simple product showcase scene" ≠ "A simple product scene" :=
  ⟨rfl, by decide⟩

/-- C8 (amended).  The terminal fallback builds a record with
`audience = "general"`, `tone = "neutral"`,
`features = ["feature not available"]`,
`scene = "A simple product showcase scene"` (not "A simple product
scene"), `description` equal to the first 200 characters of the unwrapped
input (or a fixed message when it is empty), and `product` equal to
"Unknown Product" unless some input line contains both "product" and a
colon (in which case that line's text after the last colon is used).  In
particular, for input "not json at all" the result has
`product = "Unknown Product"` and its 15-character description. -/
theorem fallback_record_amended :
    (∀ content : String,
      lookupKey "audience" (default_fallback_record content) =
          some (Json.str "general") ∧
      lookupKey "tone" (default_fallback_record content) =
          some (Json.str "neutral") ∧
      lookupKey "features" (default_fallback_record content) =
          some (Json.arr [Json.str "feature not available"]) ∧
      lookupKey "scene" (default_fallback_record content) =
          some (Json.str "A simple product showcase scene") ∧
      lookupKey "description" (default_fallback_record content) =
          some (Json.str (if content ≠ "" then pyTake content 200
                          else "Unable to generate description")) ∧
      ((pySplit content "\n").all
          (fun l => !(containsSub "product" (pyLower l) && containsSub ":" l)) = true →
        lookupKey "product" (default_fallback_record content) =
          some (Json.str "Unknown Product"))) ∧
    lookupKey "product" (parse_llm_json_with_repair extNone "not json at all") =
        some (Json.str "Unknown Product") ∧
    lookupKey "description" (parse_llm_json_with_repair extNone "not json at all") =
        some (Json.str "not json at all") ∧
    ("not json at all" : String).length ≤ 200 := by
  refine ⟨?_, rfl, rfl, by decide⟩
  intro content
  unfold default_fallback_record
  cases hf : (pySplit content "\n").find?
      (fun l => containsSub "product" (pyLower l) && containsSub ":" l) with
  | none =>
    refine ⟨rfl, rfl, rfl, rfl, rfl, fun _ => rfl⟩
  | some line =>
    refine ⟨?_, ?_, ?_, ?_, ?_, ?_⟩
    · rw [lookup_objInsert]
      rfl
    · rw [lookup_objInsert]
      rfl
    · rw [lookup_objInsert]
      rfl
    · rw [lookup_objInsert]
      rfl
    · rw [lookup_objInsert]
      rfl
    · intro hall
      exfalso
      have hmem := List.find?_mem hf
      have := List.all_eq_true.mp hall line hmem
      have hp := List.find?_some hf
      rw [hp] at this
      cases this

/-- Witness for C8's amended conditional clause at a concrete input with
no product line. -/
theorem fallback_record_amended_witness :
    lookupKey "product" (default_fallback_record "hello") =
      some (Json.str "Unknown Product") :=
  ((fallback_record_amended.1 "hello").2.2.2.2.2) (by decide)

/-! ## Claim C9 -/

/-- C9 counterexample: on six bare keys with double-quoted values,
strategy 4 as implemented fails (fix 2 escapes every value's opening
quote before the keys are quoted), while the five-step fix-up in the
order the claim describes repairs the input; and the engine removes
control characters last (observable on a NUL-split bare key), not second
as the claim orders the steps. -/
theorem regex_fixup_counterexample :
    strategy_regex_repair cRegexInput = none ∧
    spec_strategy_regex_repair cRegexInput =
      some [("product", Json.str "x"), ("audience", Json.str "a"),
            ("tone", Json.str "t"), ("description", Json.str "d"),
            ("features", Json.str "f"), ("scene", Json.str "s")] ∧
    apply_regex_fixes cCtlInput ≠ spec_order_regex_fixes cCtlInput :=
  ⟨rfl, rfl, by decide⟩

/-- C9 (amended).  Strategy 4 applies to the unwrapped content, in this
order: (1) strip trailing commas before closing brackets; (2) backslash-
escape any unescaped double quote that is followed by another quote
before a comma or closing brace/bracket; (3) the degenerate smart-quote
step (two identity replacements plus replacing the literal text
`, "'").replace(` by an apostrophe); (4) quote bare object keys;
(5) convert single-quoted runs to double-quoted; (6) drop control
characters except newline and tab; (7) re-quote the elements of simple
two-element bracket groups - and then parses the result as JSON.  The
single-quoted six-field object demonstrates the pipeline repairing an
input end to end, and the NUL-split key shows the late position of the
control-character step. -/
theorem regex_fixup_amended :
    (∀ content : String,
      apply_regex_fixes content =
        (let r1 : String := ⟨fix_trailing_commas (content.length + 1) content.data⟩
         let r2 : String := ⟨fix_unescaped_quotes false r1.data⟩
         let r3 := fix_smart_quotes r2
         let r4 : String := ⟨fix_bare_keys (r3.length + 1) r3.data⟩
         let r5 : String := ⟨fix_single_quotes (r4.length + 1) r4.data⟩
         let r6 : String := ⟨fix_control_chars r5.data⟩
         (⟨fix_array_elems (r6.length + 1) r6.data⟩ : String))) ∧
    strategy_regex_repair cSingleQuoted =
      some [("product", Json.str "x"), ("audience", Json.str "a"),
            ("tone", Json.str "t"), ("description", Json.str "d"),
            ("features", Json.str "f"), ("scene", Json.str "s")] ∧
    apply_regex_fixes cCtlInput = "ab\"cd\":" :=
  ⟨fun _ => rfl, rfl, rfl⟩
